import Mathlib

/-!
Verification of the result-normalization and aggregation logic of the
OrderDetailsFrontend repository (files app.py, ui_components.py, utilsfe.py,
config.py), shallowly embedded in Lean 4.

The embedding models JSON payloads as inductive value trees, pandas data
frames as lists of records, and Python dictionaries as association lists in
insertion order (Python dictionaries preserve insertion order).  Fallible
operations return Except values; a raised exception that no handler in the
repository catches is represented by an explicit crashed outcome.
-/

namespace OrderDetailsFrontend

/-- JSON-like values as delivered by the clustering backend: integers,
strings, and objects (Python dictionaries in insertion order). -/
inductive JVal where
  | int (n : Int)
  | str (s : String)
  | obj (fields : List (String × JVal))

/-- Dictionary lookup on a JSON object body: first binding of the key wins
(keys of a Python dictionary are unique, so this models plain access). -/
def lookupJ (fields : List (String × JVal)) (k : String) : Option JVal :=
  (fields.find? (fun p => p.1 == k)).map Prod.snd

/-- One cell of the clustered table as pandas holds it after
DataFrame.from_dict and the column selection (app.py lines 189-197):
an integer count, a string (an unparsable segment value is carried
verbatim in an object-dtype column), NaN (the fill value for a key
missing from this row), or some other Python object such as a nested
mapping.  The pipeline never reads inside such an object value: it only
makes the row sum, the comparisons, and the rendering raise, so the
pyobj constructor carries no payload. -/
inductive Cell where
  | int (n : Int)
  | str (s : String)
  | nan
  | pyobj
deriving Repr, DecidableEq

/-- Whether a cell is an integer count. -/
def Cell.isInt : Cell → Bool
  | .int _ => true
  | _ => false

/-- Whether a cell is a string. -/
def Cell.isStr : Cell → Bool
  | .str _ => true
  | _ => false

/-- One row of the clustered table of app.py lines 189-197: the outer
dictionary key becomes the Country column and the segment columns 0, 1, 2
are renamed Premium, Frequent, Budget.  The row type having exactly these
four fields models the table having exactly these columns after the
selection clustered_df.set_index('Country')[[Premium, Frequent, Budget]]. -/
structure ClusterRow where
  Country : String
  Premium : Cell
  Frequent : Cell
  Budget : Cell
deriving Repr, DecidableEq

/-- The cell the selected table holds for one segment column of one row:
the value stored verbatim (integers and strings), an opaque object for a
nested mapping, NaN when the row has no such key. -/
def getCell (fields : List (String × JVal)) (k : String) : Cell :=
  match lookupJ fields k with
  | some (.int n) => .int n
  | some (.str s) => .str s
  | some (.obj _) => .pyobj
  | none => .nan

/-- Building one clustered row from one outer binding of the cluster
response.  A value that is not itself a mapping makes the pandas pipeline
raise before any table is stored: DataFrame.from_dict raises while
collecting the nested values when the response mixes mappings and
non-mappings, and an all-scalar response produces a table without the
renamed segment columns so that the column selection raises KeyError;
either way the block of app.py lines 188-212 catches the exception, so
this case is modelled as an error here. -/
def toClusterRow : String × JVal → Except String ClusterRow
  | (c, .obj fields) =>
    .ok ⟨c, getCell fields "0", getCell fields "1", getCell fields "2"⟩
  | (_, .int _) => .error "TypeError: cluster response value is not a mapping"
  | (_, .str _) => .error "TypeError: cluster response value is not a mapping"

/-- Monadic map over Except, failing at the first failing element (as the
pandas pipeline raises at the first offending value). -/
def mapExcept (f : α → Except String β) : List α → Except String (List β)
  | [] => .ok []
  | a :: l =>
    match f a, mapExcept f l with
    | .error e, _ => .error e
    | .ok _, .error e => .error e
    | .ok b, .ok bs => .ok (b :: bs)

/-- The selected clustered table, one row per outer key of the cluster
response, in dictionary insertion order.  A segment column that exists in
no row at all (also the case of an empty response) does not exist in the
data frame, so the selection of the three renamed columns raises KeyError
(caught by the caller). -/
def buildTable (resp : List (String × JVal)) :
    Except String (List ClusterRow) := do
  let rows ← mapExcept toClusterRow resp
  if rows.all (fun r => decide (r.Premium = Cell.nan)) then
    .error "KeyError: column Premium does not exist"
  else if rows.all (fun r => decide (r.Frequent = Cell.nan)) then
    .error "KeyError: column Frequent does not exist"
  else if rows.all (fun r => decide (r.Budget = Cell.nan)) then
    .error "KeyError: column Budget does not exist"
  else
    .ok rows

/-- Addition of two object-dtype cells as Python evaluates it inside the
row sum: integers add, strings concatenate, and every other combination
(integer with string, or any object value) raises TypeError. -/
def cellAdd : Cell → Cell → Except String Cell
  | .int a, .int b => .ok (.int (a + b))
  | .str a, .str b => .ok (.str (a ++ b))
  | _, _ => .error "TypeError: unsupported operand types in row sum"

/-- The Total helper value of one row (heatmap_data.sum(axis=1) of
app.py line 198 and ui_components.py line 32): NaN cells are skipped
(skipna), the remaining cells are reduced with Python addition, and a row
of NaN only sums to integer zero. -/
def rowTotal (r : ClusterRow) : Except String Cell :=
  match [r.Premium, r.Frequent, r.Budget].filter
      (fun c => decide (c ≠ Cell.nan)) with
  | [] => .ok (.int 0)
  | c :: rest => rest.foldlM cellAdd c

/-- Descending comparison by a sort key; sort_values with ascending=False
arranges rows so that larger keys come first. -/
def keyDescLE {α β : Type} (key : α → β) [LinearOrder β] (a b : α) : Prop :=
  key b ≤ key a

instance {α β : Type} (key : α → β) [LinearOrder β] :
    DecidableRel (keyDescLE key) :=
  fun a b => inferInstanceAs (Decidable (key b ≤ key a))

instance {α β : Type} (key : α → β) [LinearOrder β] :
    IsTotal α (keyDescLE key) :=
  ⟨fun a b => le_total (key b) (key a)⟩

instance {α β : Type} (key : α → β) [LinearOrder β] :
    IsTrans α (keyDescLE key) :=
  ⟨fun _ _ _ hab hbc => le_trans hbc hab⟩

/-- Executable model of sort_values(ascending=False) with the library
default kind=quicksort.  The program guarantees only a permutation of the
rows arranged descending by the key: pandas documents just mergesort and
stable as stable kinds, so the relative order of rows with equal keys is
not guaranteed.  This model realizes one admissible permutation (it keeps
input order on ties); no theorem in this development asserts anything
about the order of tied rows. -/
def sortByDesc {α β : Type} (key : α → β) [LinearOrder β] (l : List α) :
    List α :=
  List.insertionSort (keyDescLE key) l

/-- The integer key of an all-integer Total column (the default branch is
never reached under the all-integer guard of sortClustered; it only makes
the function total). -/
def cellIntVal : Cell → Int
  | .int n => n
  | _ => 0

/-- The string key of an all-string Total column (the default branch is
never reached under the all-string guard of sortClustered; it only makes
the function total). -/
def cellStrVal : Cell → String
  | .str s => s
  | _ => ""

/-- sort_values('Total', ascending=False) on the computed totals.  A
single row needs no comparison and always succeeds.  A homogeneous Total
column sorts descending: numerically for integers, lexicographically for
strings (Python and Lean both compare strings by code point).  A column
mixing incomparable values must compare some incomparable pair (any
comparison sort of two or more rows relates every row to its neighbours),
so it raises TypeError, caught by the caller. -/
def sortClustered (pairs : List (ClusterRow × Cell)) :
    Except String (List (ClusterRow × Cell)) :=
  if pairs.length ≤ 1 then .ok pairs
  else if pairs.all (fun p => p.2.isInt) then
    .ok (sortByDesc (fun p => cellIntVal p.2) pairs)
  else if pairs.all (fun p => p.2.isStr) then
    .ok (sortByDesc (fun p => cellStrVal p.2) pairs)
  else .error "TypeError: '<' not supported between total values"

/-- The full normalization of a cluster response (app.py lines 189-199
composed with the heatmap preparation of ui_components.py lines 31-33):
build the selected table with one row per outer key and the renamed
segment columns, compute each row total, sort by the total descending and
drop the helper total.  Any exception raised on the way becomes an error
value, caught by the caller. -/
def normalize (resp : List (String × JVal)) :
    Except String (List ClusterRow) := do
  let rows ← buildTable resp
  let pairs ← mapExcept (fun r => (rowTotal r).map (fun t => (r, t))) rows
  let sorted ← sortClustered pairs
  .ok (sorted.map Prod.fst)

/-- Whether the heatmap rendering accepts a cell: the annotation format d
of ui_components.py line 45 renders only integer data; a NaN makes the
column float and a string or object keeps it object dtype, and in both
cases sns.heatmap raises. -/
def cellRenderable : Cell → Bool
  | .int _ => true
  | _ => false

/-- Whether the heatmap rendering accepts a whole row. -/
def rowRenderable (r : ClusterRow) : Bool :=
  cellRenderable r.Premium && cellRenderable r.Frequent
    && cellRenderable r.Budget

/-- Outcome of the clustering-results tab of app.py for a given backend
response: a transport error shown from the error key of the response
(line 183); a stored table whose heatmap then renders (app.py line 144
after the rerun); a stored table whose heatmap rendering raises at app.py
line 144, outside any try/except, an uncaught fault; or a caught
processing error that shows the message and the raw response and stores
no table. -/
inductive ClusterOutcome where
  | transportError (errVal : JVal)
  | rendered (table : List ClusterRow)
  | storedThenCrashed (table : List ClusterRow)
  | processingError (msg : String) (raw : List (String × JVal))

/-- The clustering-results tab of app.py: a response carrying an error
key is the transport-error path (line 183); otherwise the normalization
runs inside try/except (lines 188-212).  An exception there is caught: a
processing error is shown together with the raw response and no table is
stored.  When the pipeline raises no exception the table is stored, the
page reruns, and create_and_display_heatmap runs on the stored table at
line 144 with no surrounding handler: it renders for all-integer data and
raises an uncaught exception otherwise (string or object cells keep the
columns object dtype, NaN makes them float, and sns.heatmap with the
annotation format d raises on both). -/
def processClusterResult (result : List (String × JVal)) : ClusterOutcome :=
  match lookupJ result "error" with
  | some v => .transportError v
  | none =>
    match normalize result with
    | .error e => .processingError e result
    | .ok table =>
      if table.all rowRenderable then .rendered table
      else .storedThenCrashed table

/-- JSON-like values as delivered by the continent-analysis backend:
numbers (customer counts and revenues, modelled as rationals), strings
and objects. -/
inductive CVal where
  | num (q : ℚ)
  | str (s : String)
  | obj (fields : List (String × CVal))

/-- Dictionary lookup on a continent-analysis object body. -/
def lookupC (fields : List (String × CVal)) (k : String) : Option CVal :=
  (fields.find? (fun p => p.1 == k)).map Prod.snd

/-- One row of the continent table built in ui_components.py lines
209-217: continent name, customer count and total revenue. -/
structure ContinentRow where
  Continent : String
  customer_count : ℚ
  total_revenue : ℚ
deriving Repr, DecidableEq

/-- Building one continent row from one binding of the backend response
(ui_components.py lines 210-215).  The metrics value must be a mapping and
must carry both keys; a missing key is a raised KeyError, which no handler
on this code path catches. -/
def toContinentRow : String × CVal → Except String ContinentRow
  | (c, .obj fields) =>
    match lookupC fields "customer_count", lookupC fields "total_revenue" with
    | some (.num cc), some (.num tr) => .ok ⟨c, cc, tr⟩
    | none, _ => .error "KeyError: customer_count"
    | some _, none => .error "KeyError: total_revenue"
    | some _, some _ => .error "TypeError: metrics value is not a number"
  | (_, .num _) => .error "TypeError: metrics entry is not a mapping"
  | (_, .str _) => .error "TypeError: metrics entry is not a mapping"

/-- The unsorted continent rows, one per binding of the backend response,
in dictionary insertion order (the data_list loop of ui_components.py). -/
def buildContinentRows (resp : List (String × CVal)) :
    Except String (List ContinentRow) :=
  mapExcept toContinentRow resp

/-- The flatten operation of the backend continent response: one row per
continent, sorted by Total_Revenue descending
(ui_components.py lines 209-218). -/
def flatten_backend (resp : List (String × CVal)) :
    Except String (List ContinentRow) :=
  (buildContinentRows resp).map (sortByDesc ContinentRow.total_revenue)

/-- Sum of the Customer_Count column (ui_components.py line 253). -/
def totalCustomers (rows : List ContinentRow) : ℚ :=
  (rows.map ContinentRow.customer_count).sum

/-- Sum of the Total_Revenue column (ui_components.py line 257). -/
def totalRevenue (rows : List ContinentRow) : ℚ :=
  (rows.map ContinentRow.total_revenue).sum

/-- Outcome of the continent-analysis tab of app.py (lines 214-235): a
displayed error message (the st.error path for a response carrying an
error key), a rendered table with its summary metrics, or an exception
that escapes the renderer uncaught (there is no try/except around
render_backend_continent_analysis). -/
inductive ContinentOutcome where
  | errorShown (errVal : CVal)
  | rendered (table : List ContinentRow) (totCustomers totRevenue avgRevenue : ℚ)
  | crashed (msg : String)

/-- The continent-analysis tab: a response with an error key shows the
error (app.py line 225); otherwise render_backend_continent_analysis runs
with no surrounding handler, so a failure while flattening is an uncaught
exception, and on success the sorted table is rendered together with total
customers, total revenue, and the guarded average revenue per customer
(ui_components.py lines 250-262). -/
def continentAnalysisTab (result : List (String × CVal)) : ContinentOutcome :=
  match lookupC result "error" with
  | some v => .errorShown v
  | none =>
    match flatten_backend result with
    | .error e => .crashed e
    | .ok rows =>
      let tc := totalCustomers rows
      let tr := totalRevenue rows
      .rendered rows tc tr (if tc > 0 then tr / tc else 0)

/-- A customer record as far as the continent aggregation reads it: the
CustomerID column used for de-duplication and the Country column used for
the continent lookup (utilsfe.py line 67). -/
structure CustomerRecord where
  CustomerID : Nat
  Country : String
deriving Repr, DecidableEq

/-- The hardcoded continent-to-countries table of utilsfe.py
lines 45-56. -/
def continent_to_countries : List (String × List String) :=
  [("All", []),
   ("Europe",
     ["France", "Spain", "Italy", "Germany", "Sweden", "Belgium",
      "UK", "Norway", "Finland", "Switzerland", "Austria",
      "Denmark", "Ireland", "Portugal", "Netherlands", "Poland"]),
   ("Asia", ["Singapore", "Japan"]),
   ("Oceania", ["Australia"]),
   ("South America", ["Brazil", "Venezuela", "Argentina"]),
   ("North America", ["USA", "Canada", "Mexico"])]

/-- The country-to-continent dictionary comprehension of utilsfe.py
lines 58-62. -/
def country_to_continent : List (String × String) :=
  (continent_to_countries.map (fun p => p.2.map (fun c => (c, p.1)))).flatten

/-- Dictionary get on the static table: exact string match on the country
name, none when the country is not a key
(country_to_continent.get(country, ...) of utilsfe.py line 77). -/
def country_to_continent_get (c : String) : Option String :=
  (country_to_continent.find? (fun p => p.1 == c)).map Prod.snd

/-- The per-country continent of the loop body, with the Other default
for countries absent from the static table
(country_to_continent.get(country, Other) of utilsfe.py line 77). -/
def contOf (c : String) : String :=
  (country_to_continent_get c).getD "Other"

/-- drop_duplicates(subset=CustomerID) with an accumulator of the
CustomerID values already seen: the first row of each CustomerID is kept,
later rows with the same CustomerID are dropped. -/
def dropDupGo (seen : List Nat) : List CustomerRecord → List CustomerRecord
  | [] => []
  | r :: rs =>
    if r.CustomerID ∈ seen then dropDupGo seen rs
    else r :: dropDupGo (r.CustomerID :: seen) rs

/-- De-duplication by CustomerID, first occurrence wins
(utilsfe.py line 67). -/
def drop_duplicates (df : List CustomerRecord) : List CustomerRecord :=
  dropDupGo [] df

/-- value_counts of the Country column: each distinct country together
with its number of occurrences.  The order of the pairs is first-seen
order; the real value_counts orders by frequency, but the aggregation that
consumes these pairs only adds the counts into per-continent buckets, and
addition does not depend on the order of the pairs. -/
def value_counts_fuel : Nat → List String → List (String × Nat)
  | _, [] => []
  | 0, _ :: _ => []
  | Nat.succ fuel, c :: rest =>
    (c, 1 + (rest.filter (fun x => decide (x = c))).length) ::
      value_counts_fuel fuel (rest.filter (fun x => decide (x ≠ c)))

/-- value_counts with enough fuel for the whole column (the fuel argument
only makes the recursion structural; the length of the list always
suffices because each step filters the handled country out). -/
def value_counts (cs : List String) : List (String × Nat) :=
  value_counts_fuel cs.length cs

/-- The loop body of utilsfe.py lines 76-79: add a count to the bucket of
a continent when that continent is one of the five initialized buckets,
and do nothing otherwise (the membership guard on line 78). -/
def addToBucket (acc : List (String × Nat)) (continent : String) (n : Nat) :
    List (String × Nat) :=
  acc.map (fun p => if p.1 = continent then (p.1, p.2 + n) else p)

/-- The five buckets initialized to zero (utilsfe.py lines 69-74), in the
insertion order of the Python dictionary. -/
def continent_count_init : List (String × Nat) :=
  [("Europe", 0), ("Asia", 0), ("Oceania", 0),
   ("South America", 0), ("North America", 0)]

/-- The local continent aggregation of utilsfe.py lines 64-83: count
countries over the de-duplicated records, then fold the counts into the
five fixed continent buckets through the static lookup, with unmapped
countries falling to Other and therefore skipped by the bucket guard. -/
def customer_continent_graph (df : List CustomerRecord) :
    List (String × Nat) :=
  let country_counts := value_counts ((drop_duplicates df).map (·.Country))
  country_counts.foldl
    (fun acc p => addToBucket acc (contOf p.1) p.2)
    continent_count_init

/-- Reading one bucket of the aggregation result (0 when absent). -/
def getCount (b : List (String × Nat)) (k : String) : Nat :=
  ((b.find? (fun p => p.1 == k)).map Prod.snd).getD 0

/-- Sum of all reported bucket values. -/
def totalCount (b : List (String × Nat)) : Nat :=
  (b.map Prod.snd).sum

/-- The fixed key list of the reported buckets. -/
def fiveContinents : List String :=
  ["Europe", "Asia", "Oceania", "South America", "North America"]

/-- Exceptions that the requests library can raise, in the order the
except clauses of utilsfe.py discriminate them (Timeout and
ConnectionError are subclasses of RequestException; the constructors here
are the disjoint dynamic classes). -/
inductive ReqError where
  | timeout (msg : String)
  | connectionError (msg : String)
  | requestException (msg : String)
  | otherException (name msg : String)

/-- What one HTTP call did: either the requests call raised, or a response
arrived with a status code, a body text, and the outcome of parsing the
body as JSON. -/
inductive HttpOutcome where
  | raised (e : ReqError)
  | response (status : Nat) (text : String) (json : Except String JVal)

/-- The error dictionary every wrapper returns on failure. -/
def errObj (m : String) : JVal :=
  .obj [("error", .str m)]

/-- The message type(e).__name__ plus str(e) used by call_backend. -/
def errMessageGeneric : ReqError → String
  | .timeout m => "Timeout: " ++ m
  | .connectionError m => "ConnectionError: " ++ m
  | .requestException m => "RequestException: " ++ m
  | .otherException n m => n ++ ": " ++ m

/-- str(e) of a requests exception. -/
def reqErrStr : ReqError → String
  | .timeout m => m
  | .connectionError m => m
  | .requestException m => m
  | .otherException _ m => m

/-- call_backend of utilsfe.py lines 12-43: any exception is caught into
an error dictionary, a non-200 status becomes an error dictionary, an
unparsable body becomes an error dictionary, and otherwise the parsed JSON
is returned. -/
def call_backend : HttpOutcome → JVal
  | .raised e => errObj (errMessageGeneric e)
  | .response status text json =>
    if status ≠ 200 then errObj ("HTTP " ++ toString status ++ ": " ++ text)
    else
      match json with
      | .ok v => v
      | .error _ => errObj ("Invalid JSON response:\n" ++ text)

/-- call_continent_analysis_backend of utilsfe.py lines 85-132, with its
four except clauses; the ValueError of an unparsable 200 body falls to the
generic except clause. -/
def call_continent_analysis_backend : HttpOutcome → JVal
  | .response status text json =>
    if status = 200 then
      match json with
      | .ok v => v
      | .error m => errObj ("Unexpected error: " ++ m)
    else
      errObj ("Backend request failed with status " ++ toString status
        ++ ": " ++ text)
  | .raised (.timeout _) => errObj "Backend request timed out. Please try again."
  | .raised (.connectionError m) =>
    errObj ("Could not connect to backend server. Please check if the server is running.  "
      ++ m)
  | .raised (.requestException m) => errObj ("Request failed: " ++ m)
  | .raised (.otherException _ m) => errObj ("Unexpected error: " ++ m)

/-- call_potential_customers_backend of utilsfe.py lines 137-162: the
RequestException clause also covers Timeout and ConnectionError (they are
its subclasses), anything else falls to the generic clause. -/
def call_potential_customers_backend : HttpOutcome → JVal
  | .response status text json =>
    if status = 200 then
      match json with
      | .ok v => v
      | .error m => errObj ("Unexpected error: " ++ m)
    else
      errObj ("Backend API error: " ++ toString status ++ " - " ++ text)
  | .raised (.otherException _ m) => errObj ("Unexpected error: " ++ m)
  | .raised e => errObj ("Backend API request failed: " ++ reqErrStr e)

/-- fetch_customer_details_from_blob of utilsfe.py lines 164-189, with the
same handler structure as call_potential_customers_backend. -/
def fetch_customer_details_from_blob : HttpOutcome → JVal
  | .response status text json =>
    if status = 200 then
      match json with
      | .ok v => v
      | .error m => errObj ("Unexpected error: " ++ m)
    else
      errObj ("Backend API error: " ++ toString status ++ " - " ++ text)
  | .raised (.otherException _ m) => errObj ("Unexpected error: " ++ m)
  | .raised e => errObj ("Backend API request failed: " ++ reqErrStr e)

/-! Lemmas about mapExcept. -/

theorem mapExcept_ok_forall2 {α β : Type} {f : α → Except String β} :
    ∀ {l : List α} {ys : List β}, mapExcept f l = .ok ys →
      List.Forall₂ (fun a b => f a = .ok b) l ys := by
  intro l
  induction l with
  | nil =>
    intro ys h
    simp only [mapExcept] at h
    cases h
    exact List.Forall₂.nil
  | cons a l ih =>
    intro ys h
    simp only [mapExcept] at h
    cases hfa : f a with
    | error e => rw [hfa] at h; cases h
    | ok b =>
      rw [hfa] at h
      cases hml : mapExcept f l with
      | error e => rw [hml] at h; cases h
      | ok bs =>
        rw [hml] at h
        cases h
        exact List.Forall₂.cons hfa (ih hml)

theorem mapExcept_ok_of_mem {α β : Type} {f : α → Except String β}
    {l : List α} {ys : List β} (h : mapExcept f l = .ok ys) :
    ∀ a ∈ l, ∃ b, f a = .ok b := by
  have hf := mapExcept_ok_forall2 h
  clear h
  induction hf with
  | nil => intro a ha; cases ha
  | cons hab _ ih =>
    intro x hx
    cases hx with
    | head => exact ⟨_, hab⟩
    | tail _ hx => exact ih _ hx

/-- Claim C2 counterexample: the response binding France to the row abc,
def, ghi has inner values that cannot be parsed as counts, yet the
pipeline raises nothing while processing it (the object-dtype row sum
concatenates the strings and a single row sorts without comparison): the
garbage table is built and stored with no processing error reported, and
the failure only surfaces as an uncaught exception when the heatmap of
the stored table renders, so the claimed catch-and-report behaviour fails
at this input. -/
theorem thm_C2_counterexample :
    processClusterResult
        [("France", .obj [("0", .str "abc"), ("1", .str "def"),
          ("2", .str "ghi")])]
      = .storedThenCrashed [⟨"France", .str "abc", .str "def", .str "ghi"⟩]
    ∧ (∀ e raw, processClusterResult
        [("France", .obj [("0", .str "abc"), ("1", .str "def"),
          ("2", .str "ghi")])]
        ≠ .processingError e raw) := by
  refine ⟨rfl, fun e raw hc => ?_⟩
  rw [show processClusterResult
      [("France", .obj [("0", .str "abc"), ("1", .str "def"),
        ("2", .str "ghi")])]
    = .storedThenCrashed [⟨"France", .str "abc", .str "def", .str "ghi"⟩]
    from rfl] at hc
  cases hc

/-- Claim C2 amended: on a response without a transport-error key, a
malformation is caught and reported only when it makes the processing
pipeline itself raise (an outer value that is no mapping, a segment
column missing from every row, a row mixing string and integer cells so
the row sum raises, or rows whose totals mix incomparable types so the
sort raises): then a processing error distinct from the transport-error
outcome is shown, the raw response is surfaced unmodified, and no table
is stored.  A malformation that the pipeline tolerates (for example a row
whose segment cells are all strings, which sums by concatenation) instead
builds and stores a garbage table with no error report, and the failure
surfaces later as an uncaught exception when the heatmap of the stored
table renders. -/
theorem thm_C2 :
    (∀ (result : List (String × JVal)) (e : String),
      lookupJ result "error" = none →
      normalize result = .error e →
        processClusterResult result = .processingError e result
        ∧ (∀ table, processClusterResult result ≠ .rendered table)
        ∧ (∀ table, processClusterResult result ≠ .storedThenCrashed table)
        ∧ (∀ v, processClusterResult result ≠ .transportError v))
    ∧ (∀ (result : List (String × JVal)) (table : List ClusterRow),
      lookupJ result "error" = none →
      normalize result = .ok table →
      table.all rowRenderable = false →
        processClusterResult result = .storedThenCrashed table
        ∧ (∀ e raw, processClusterResult result ≠ .processingError e raw)) := by
  constructor
  · intro result e hNoErr hFail
    have h : processClusterResult result = .processingError e result := by
      unfold processClusterResult
      rw [hNoErr, hFail]
    refine ⟨h, fun table hc => ?_, fun table hc => ?_, fun v hc => ?_⟩
    · rw [h] at hc; cases hc
    · rw [h] at hc; cases hc
    · rw [h] at hc; cases hc
  · intro result table hNoErr hOk hBad
    have h : processClusterResult result = .storedThenCrashed table := by
      unfold processClusterResult
      rw [hNoErr, hOk]
      show (if table.all rowRenderable = true then ClusterOutcome.rendered table
        else ClusterOutcome.storedThenCrashed table) = _
      rw [if_neg]
      rw [hBad]
      exact Bool.false_ne_true
    refine ⟨h, fun e raw hc => ?_⟩
    rw [h] at hc
    cases hc

/-- Claim C2 witness for the amended claim: a row mixing the string abc
with integer counts makes the row sum raise, which is caught and reported
with the raw response surfaced; the all-string row of the counterexample
is stored and crashes only at rendering. -/
theorem thm_C2_witness :
    (processClusterResult
        [("France", .obj [("0", .str "abc"), ("1", .int 2), ("2", .int 1)])]
      = .processingError "TypeError: unsupported operand types in row sum"
          [("France", .obj [("0", .str "abc"), ("1", .int 2),
            ("2", .int 1)])])
    ∧ processClusterResult
        [("France", .obj [("0", .str "abc"), ("1", .str "def"),
          ("2", .str "ghi")])]
      = .storedThenCrashed
          [⟨"France", .str "abc", .str "def", .str "ghi"⟩] :=
  ⟨(thm_C2.1
      [("France", .obj [("0", .str "abc"), ("1", .int 2), ("2", .int 1)])]
      "TypeError: unsupported operand types in row sum" rfl rfl).1,
   (thm_C2.2
      [("France", .obj [("0", .str "abc"), ("1", .str "def"),
        ("2", .str "ghi")])]
      [⟨"France", .str "abc", .str "def", .str "ghi"⟩] rfl rfl rfl).1⟩

theorem toContinentRow_missing (cont : String)
    (fields : List (String × CVal))
    (h : lookupC fields "customer_count" = none
        ∨ lookupC fields "total_revenue" = none) :
    ∀ r, toContinentRow (cont, .obj fields) ≠ .ok r := by
  intro r hc
  simp only [toContinentRow] at hc
  split at hc <;> rcases h with h | h <;> simp_all

/-- Claim C4 counterexample: on the concrete response whose Europe entry
misses the total_revenue key, the continent-analysis path does not report
a displayable error; the KeyError escapes the renderer as an uncaught
exception and no table is rendered, so the claimed behaviour (a
displayable processing error, never an unhandled fault) fails on the
code. -/
theorem thm_C4_counterexample :
    continentAnalysisTab [("Europe", .obj [("customer_count", .num 10)])]
      = .crashed "KeyError: total_revenue"
    ∧ (∀ v, continentAnalysisTab
        [("Europe", .obj [("customer_count", .num 10)])]
        ≠ .errorShown v)
    ∧ (∀ table a b c, continentAnalysisTab
        [("Europe", .obj [("customer_count", .num 10)])]
        ≠ .rendered table a b c) := by
  refine ⟨rfl, fun v hc => ?_, fun table a b c hc => ?_⟩
  · rw [show continentAnalysisTab
        [("Europe", .obj [("customer_count", .num 10)])]
      = .crashed "KeyError: total_revenue" from rfl] at hc
    cases hc
  · rw [show continentAnalysisTab
        [("Europe", .obj [("customer_count", .num 10)])]
      = .crashed "KeyError: total_revenue" from rfl] at hc
    cases hc

/-- Claim C4 amended: for every backend continent response without a
transport-error key in which some continent entry misses the
customer_count or total_revenue key, the flatten/render step fails with a
KeyError that no handler on this code path catches (an unhandled fault
escaping the renderer, not a displayed error), and no table is
rendered. -/
theorem thm_C4 (resp : List (String × CVal)) (cont : String)
    (fields : List (String × CVal))
    (hNoErr : lookupC resp "error" = none)
    (hMem : (cont, CVal.obj fields) ∈ resp)
    (hMissing : lookupC fields "customer_count" = none
        ∨ lookupC fields "total_revenue" = none) :
    ∃ e, continentAnalysisTab resp = .crashed e
      ∧ (∀ table a b c,
          continentAnalysisTab resp ≠ .rendered table a b c) := by
  cases hbuild : buildContinentRows resp with
  | ok rows =>
    exfalso
    obtain ⟨r, hr⟩ := mapExcept_ok_of_mem hbuild _ hMem
    exact toContinentRow_missing cont fields hMissing r hr
  | error e =>
    have hflat : flatten_backend resp = .error e := by
      unfold flatten_backend
      rw [hbuild]
      rfl
    have htab : continentAnalysisTab resp = .crashed e := by
      unfold continentAnalysisTab
      rw [hNoErr, hflat]
    refine ⟨e, htab, fun table a b c hc => ?_⟩
    rw [htab] at hc
    cases hc

/-- Claim C4 witness for the amended claim: the Europe entry missing
total_revenue makes the tab crash. -/
theorem thm_C4_witness :
    ∃ e, continentAnalysisTab
        [("Europe", .obj [("customer_count", .num 10)])] = .crashed e
      ∧ (∀ table a b c,
          continentAnalysisTab
            [("Europe", .obj [("customer_count", .num 10)])]
            ≠ .rendered table a b c) :=
  thm_C4 [("Europe", .obj [("customer_count", .num 10)])] "Europe"
    [("customer_count", .num 10)] rfl (List.mem_singleton.mpr rfl)
    (Or.inr rfl)

/-- Claim C8: whenever the continent-analysis tab renders, the displayed
metrics are the sum of the Customer_Count column, the sum of the
Total_Revenue column, and the average revenue per customer, which equals
total revenue divided by total customers when the customer total is
positive and is exactly zero when the customer total is zero; the guarded
conditional never divides by zero. -/
theorem thm_C8 (resp : List (String × CVal)) (rows : List ContinentRow)
    (hNoErr : lookupC resp "error" = none)
    (hOk : flatten_backend resp = .ok rows) :
    ∃ avg,
      continentAnalysisTab resp
        = .rendered rows (totalCustomers rows) (totalRevenue rows) avg
      ∧ totalCustomers rows = (rows.map ContinentRow.customer_count).sum
      ∧ totalRevenue rows = (rows.map ContinentRow.total_revenue).sum
      ∧ (totalCustomers rows > 0 →
          avg = totalRevenue rows / totalCustomers rows)
      ∧ (totalCustomers rows = 0 → avg = 0) := by
  refine ⟨if totalCustomers rows > 0
      then totalRevenue rows / totalCustomers rows else 0, ?_, rfl, rfl,
    fun hpos => if_pos hpos, fun hz => ?_⟩
  · unfold continentAnalysisTab
    rw [hNoErr, hOk]
  · rw [if_neg]
    rw [hz]
    exact lt_irrefl 0

/-- Claim C8 witness: the Europe/Asia example of the specification, whose
totals are 15 customers and 3000 revenue with average 200, and a
customer total of zero yielding average zero. -/
theorem thm_C8_witness :
    (∃ avg,
      continentAnalysisTab
          [("Europe", .obj [("customer_count", .num 10),
                            ("total_revenue", .num 1000)]),
           ("Asia", .obj [("customer_count", .num 5),
                          ("total_revenue", .num 2000)])]
        = .rendered [⟨"Asia", 5, 2000⟩, ⟨"Europe", 10, 1000⟩]
            (totalCustomers [⟨"Asia", 5, 2000⟩, ⟨"Europe", 10, 1000⟩])
            (totalRevenue [⟨"Asia", 5, 2000⟩, ⟨"Europe", 10, 1000⟩]) avg
      ∧ totalCustomers [⟨"Asia", 5, 2000⟩, ⟨"Europe", 10, 1000⟩]
        = ([(⟨"Asia", 5, 2000⟩ : ContinentRow),
            ⟨"Europe", 10, 1000⟩].map ContinentRow.customer_count).sum
      ∧ totalRevenue [⟨"Asia", 5, 2000⟩, ⟨"Europe", 10, 1000⟩]
        = ([(⟨"Asia", 5, 2000⟩ : ContinentRow),
            ⟨"Europe", 10, 1000⟩].map ContinentRow.total_revenue).sum
      ∧ (totalCustomers [⟨"Asia", 5, 2000⟩, ⟨"Europe", 10, 1000⟩] > 0 →
          avg = totalRevenue [⟨"Asia", 5, 2000⟩, ⟨"Europe", 10, 1000⟩]
            / totalCustomers [⟨"Asia", 5, 2000⟩, ⟨"Europe", 10, 1000⟩])
      ∧ (totalCustomers [⟨"Asia", 5, 2000⟩, ⟨"Europe", 10, 1000⟩] = 0 →
          avg = 0))
    ∧ totalCustomers [⟨"Asia", 5, 2000⟩, ⟨"Europe", 10, 1000⟩] = 15
    ∧ totalRevenue [⟨"Asia", 5, 2000⟩, ⟨"Europe", 10, 1000⟩] = 3000
    ∧ (3000 : ℚ) / 15 = 200
    ∧ totalCustomers [] = 0 := by
  refine ⟨thm_C8
    [("Europe", .obj [("customer_count", .num 10),
                      ("total_revenue", .num 1000)]),
     ("Asia", .obj [("customer_count", .num 5),
                    ("total_revenue", .num 2000)])]
    [⟨"Asia", 5, 2000⟩, ⟨"Europe", 10, 1000⟩] rfl rfl, ?_, ?_, ?_, rfl⟩
  · simp [totalCustomers]
    norm_num
  · simp [totalRevenue]
    norm_num
  · norm_num

/-- A failed HTTP interaction: the requests call raised, or the response
status is not 200. -/
def failureOutcome (o : HttpOutcome) : Prop :=
  (∃ e, o = .raised e)
  ∨ (∃ s t j, o = .response s t j ∧ s ≠ 200)

/-- Claim C9: each of the four endpoint wrappers converts every raised
exception and every non-200 response into a returned dictionary holding a
human-readable message under the error key; the wrappers are total
functions of the HTTP outcome, so nothing is ever raised to the rendering
layer. -/
theorem thm_C9 (o : HttpOutcome) (h : failureOutcome o) :
    (∃ m, call_backend o = errObj m)
    ∧ (∃ m, call_continent_analysis_backend o = errObj m)
    ∧ (∃ m, call_potential_customers_backend o = errObj m)
    ∧ (∃ m, fetch_customer_details_from_blob o = errObj m) := by
  rcases h with ⟨e, rfl⟩ | ⟨s, t, j, rfl, hs⟩
  · cases e <;> exact ⟨⟨_, rfl⟩, ⟨_, rfl⟩, ⟨_, rfl⟩, ⟨_, rfl⟩⟩
  · refine ⟨⟨"HTTP " ++ toString s ++ ": " ++ t, ?_⟩,
      ⟨"Backend request failed with status " ++ toString s ++ ": " ++ t, ?_⟩,
      ⟨"Backend API error: " ++ toString s ++ " - " ++ t, ?_⟩,
      ⟨"Backend API error: " ++ toString s ++ " - " ++ t, ?_⟩⟩
    · simp only [call_backend]
      rw [if_pos hs]
    · simp only [call_continent_analysis_backend]
      rw [if_neg hs]
    · simp only [call_potential_customers_backend]
      rw [if_neg hs]
    · simp only [fetch_customer_details_from_blob]
      rw [if_neg hs]

/-- Claim C9 witness: a raised timeout and a 500 response both map to
error dictionaries in all four wrappers. -/
theorem thm_C9_witness :
    ((∃ m, call_backend (.raised (.timeout "socket timed out")) = errObj m)
      ∧ (∃ m, call_continent_analysis_backend
          (.raised (.timeout "socket timed out")) = errObj m)
      ∧ (∃ m, call_potential_customers_backend
          (.raised (.timeout "socket timed out")) = errObj m)
      ∧ (∃ m, fetch_customer_details_from_blob
          (.raised (.timeout "socket timed out")) = errObj m))
    ∧ ((∃ m, call_backend
          (.response 500 "Internal Server Error" (.error "no json"))
          = errObj m)
      ∧ (∃ m, call_continent_analysis_backend
          (.response 500 "Internal Server Error" (.error "no json"))
          = errObj m)
      ∧ (∃ m, call_potential_customers_backend
          (.response 500 "Internal Server Error" (.error "no json"))
          = errObj m)
      ∧ (∃ m, fetch_customer_details_from_blob
          (.response 500 "Internal Server Error" (.error "no json"))
          = errObj m)) :=
  ⟨thm_C9 (.raised (.timeout "socket timed out"))
      (Or.inl ⟨.timeout "socket timed out", rfl⟩),
   thm_C9 (.response 500 "Internal Server Error" (.error "no json"))
      (Or.inr ⟨500, "Internal Server Error", .error "no json", rfl,
        by decide⟩)⟩

/-! Lemmas about the continent buckets. -/

theorem map_fst_addToBucket (acc : List (String × Nat)) (c : String)
    (n : Nat) : (addToBucket acc c n).map Prod.fst = acc.map Prod.fst := by
  induction acc with
  | nil => rfl
  | cons q t ih =>
    show (if q.1 = c then (q.1, q.2 + n) else q).1
        :: (addToBucket t c n).map Prod.fst = q.1 :: t.map Prod.fst
    rw [ih]
    by_cases h : q.1 = c
    · rw [if_pos h]
    · rw [if_neg h]

theorem map_fst_foldBuckets :
    ∀ (pairs : List (String × Nat)) (acc : List (String × Nat)),
      (pairs.foldl (fun a p => addToBucket a (contOf p.1) p.2) acc).map
          Prod.fst
        = acc.map Prod.fst := by
  intro pairs
  induction pairs with
  | nil => intro acc; rfl
  | cons p ps ih =>
    intro acc
    show (ps.foldl _ (addToBucket acc (contOf p.1) p.2)).map Prod.fst = _
    rw [ih, map_fst_addToBucket]

theorem map_fst_graph (df : List CustomerRecord) :
    (customer_continent_graph df).map Prod.fst = fiveContinents := by
  show ((value_counts ((drop_duplicates df).map (·.Country))).foldl
      (fun a p => addToBucket a (contOf p.1) p.2)
      continent_count_init).map Prod.fst = fiveContinents
  rw [map_fst_foldBuckets]
  rfl

/-- Claim C5: for every customer table, the local aggregation reports
exactly the five buckets Europe, Asia, Oceania, South America,
North America, in that fixed order (buckets absent from the data remain
present with their initialized zero), every reported value is a natural
number, and no Other bucket appears in the output. -/
theorem thm_C5 (df : List CustomerRecord) :
    (customer_continent_graph df).map Prod.fst
      = ["Europe", "Asia", "Oceania", "South America", "North America"]
    ∧ "Other" ∉ (customer_continent_graph df).map Prod.fst
    ∧ (customer_continent_graph df).length = 5 := by
  have hkeys := map_fst_graph df
  refine ⟨hkeys, ?_, ?_⟩
  · rw [hkeys]
    decide
  · have := congrArg List.length hkeys
    rw [List.length_map] at this
    exact this

theorem find?_addToBucket (acc : List (String × Nat)) (c k : String)
    (n : Nat) :
    (addToBucket acc c n).find? (fun p => p.1 == k)
      = (acc.find? (fun p => p.1 == k)).map
          (fun p => if p.1 = c then (p.1, p.2 + n) else p) := by
  induction acc with
  | nil => rfl
  | cons q t ih =>
    have hfst : (if q.1 = c then (q.1, q.2 + n) else q).1 = q.1 := by
      split <;> rfl
    show ((if q.1 = c then (q.1, q.2 + n) else q)
        :: addToBucket t c n).find? (fun p => p.1 == k) = _
    by_cases hk : q.1 = k
    · rw [List.find?_cons_of_pos _ (show _ = true by rw [hfst]; simp [hk]),
        List.find?_cons_of_pos _ (by simp [hk])]
      rfl
    · rw [List.find?_cons_of_neg _ (show ¬ _ = true by rw [hfst]; simp [hk]),
        List.find?_cons_of_neg _ (by simp [hk])]
      exact ih

theorem getCount_addToBucket (acc : List (String × Nat)) (c k : String)
    (n : Nat) :
    getCount (addToBucket acc c n) k
      = getCount acc k
        + (if k = c ∧ k ∈ acc.map Prod.fst then n else 0) := by
  unfold getCount
  rw [find?_addToBucket]
  cases hf : acc.find? (fun p => p.1 == k) with
  | none =>
    have hk : k ∉ acc.map Prod.fst := by
      intro hmem
      obtain ⟨p, hp, hpk⟩ := List.mem_map.mp hmem
      have := List.find?_eq_none.mp hf p hp
      simp [hpk] at this
    simp [hk]
  | some p =>
    have hpk : p.1 = k := by simpa using List.find?_some hf
    have hmem : k ∈ acc.map Prod.fst :=
      List.mem_map.mpr ⟨p, List.mem_of_find?_eq_some hf, hpk⟩
    by_cases hc : k = c
    · rw [if_pos ⟨hc, hmem⟩]
      simp [hpk, hc]
    · rw [if_neg (fun hand => hc hand.1)]
      have : ¬ p.1 = c := by rw [hpk]; exact hc
      simp [this]

theorem getCount_foldBuckets :
    ∀ (pairs : List (String × Nat)) (acc : List (String × Nat)) (k : String),
      k ∈ acc.map Prod.fst →
      getCount (pairs.foldl (fun a p => addToBucket a (contOf p.1) p.2) acc) k
        = getCount acc k
          + ((pairs.filter (fun p => decide (contOf p.1 = k))).map
              Prod.snd).sum := by
  intro pairs
  induction pairs with
  | nil => intro acc k hk; simp
  | cons p ps ih =>
    intro acc k hk
    show getCount (ps.foldl _ (addToBucket acc (contOf p.1) p.2)) k = _
    rw [ih (addToBucket acc (contOf p.1) p.2) k
      (by rw [map_fst_addToBucket]; exact hk)]
    by_cases hc : contOf p.1 = k
    · have h1 : getCount (addToBucket acc (contOf p.1) p.2) k
          = getCount acc k + p.2 := by
        rw [getCount_addToBucket, if_pos ⟨hc.symm, hk⟩]
      have h2 : (p :: ps).filter (fun q => decide (contOf q.1 = k))
          = p :: ps.filter (fun q => decide (contOf q.1 = k)) := by
        simp [List.filter_cons, hc]
      rw [h1, h2]
      simp only [List.map_cons, List.sum_cons]
      omega
    · have h1 : getCount (addToBucket acc (contOf p.1) p.2) k
          = getCount acc k := by
        rw [getCount_addToBucket, if_neg (fun hand => hc hand.1.symm)]
        omega
      have h2 : (p :: ps).filter (fun q => decide (contOf q.1 = k))
          = ps.filter (fun q => decide (contOf q.1 = k)) := by
        simp [List.filter_cons, hc]
      rw [h1, h2]

theorem getCount_init_zero (k : String) :
    getCount continent_count_init k = 0 := by
  unfold getCount
  cases hf : continent_count_init.find? (fun p => p.1 == k) with
  | none => rfl
  | some p =>
    have hp := List.mem_of_find?_eq_some hf
    have hz : p.2 = 0 := by
      fin_cases hp <;> rfl
    simp [hz]

theorem filter_split_helper (c : String) (P : String → Bool) :
    ∀ rest : List String,
      (if P c then (rest.filter (fun x => decide (x = c))).length else 0)
        + ((rest.filter (fun x => decide (x ≠ c))).filter P).length
      = (rest.filter P).length := by
  intro rest
  induction rest with
  | nil => simp
  | cons x t ih =>
    by_cases hx : x = c
    · subst hx
      by_cases hP : P x <;> simp [List.filter_cons, hP] at ih ⊢ <;> omega
    · by_cases hPx : P x <;> simp [List.filter_cons, hx, hPx] at ih ⊢ <;>
        by_cases hPc : P c <;> simp [hPc] at ih ⊢ <;> omega

theorem value_counts_fuel_sum (P : String → Bool) :
    ∀ (fuel : Nat) (cs : List String), cs.length ≤ fuel →
      (((value_counts_fuel fuel cs).filter (fun p => P p.1)).map
          Prod.snd).sum
        = (cs.filter P).length := by
  intro fuel
  induction fuel with
  | zero =>
    intro cs h
    cases cs with
    | nil => rfl
    | cons c rest => simp at h
  | succ fuel ih =>
    intro cs h
    cases cs with
    | nil => rfl
    | cons c rest =>
      have hlen : (rest.filter (fun x => decide (x ≠ c))).length ≤ fuel :=
        le_trans (List.length_filter_le _ _)
          (Nat.succ_le_succ_iff.mp (by simpa using h))
      show ((((c, 1 + (rest.filter (fun x => decide (x = c))).length)
          :: value_counts_fuel fuel
              (rest.filter (fun x => decide (x ≠ c)))).filter
            (fun p => P p.1)).map Prod.snd).sum = _
      rw [List.filter_cons]
      have hsplit := filter_split_helper c P rest
      by_cases hP : P c
      · rw [if_pos (by simpa using hP)]
        simp only [List.map_cons, List.sum_cons]
        rw [ih _ hlen, List.filter_cons, if_pos hP]
        simp only [List.length_cons]
        rw [if_pos hP] at hsplit
        omega
      · rw [if_neg (by simpa using hP)]
        rw [ih _ hlen, List.filter_cons, if_neg hP]
        rw [if_neg hP] at hsplit
        omega

theorem value_counts_sum (P : String → Bool) (cs : List String) :
    (((value_counts cs).filter (fun p => P p.1)).map Prod.snd).sum
      = (cs.filter P).length :=
  value_counts_fuel_sum P cs.length cs le_rfl

theorem length_filter_map_country (p : String → Bool) :
    ∀ l : List CustomerRecord,
      ((l.map (·.Country)).filter p).length
        = (l.filter (fun r => p r.Country)).length := by
  intro l
  induction l with
  | nil => rfl
  | cons r t ih =>
    show ((r.Country :: t.map (·.Country)).filter p).length = _
    rw [List.filter_cons, List.filter_cons]
    by_cases hp : p r.Country
    · rw [if_pos hp, if_pos hp]
      simp only [List.length_cons]
      rw [ih]
    · rw [if_neg hp, if_neg hp]
      exact ih

/-- The value of each of the five buckets is the number of de-duplicated
records whose country maps to that bucket. -/
theorem getCount_graph (df : List CustomerRecord) (k : String)
    (hk : k ∈ fiveContinents) :
    getCount (customer_continent_graph df) k
      = ((drop_duplicates df).filter
          (fun r => decide (contOf r.Country = k))).length := by
  show getCount ((value_counts ((drop_duplicates df).map (·.Country))).foldl
      (fun a p => addToBucket a (contOf p.1) p.2) continent_count_init) k = _
  rw [getCount_foldBuckets _ continent_count_init k
    (by exact hk), getCount_init_zero,
    value_counts_sum (fun c => decide (contOf c = k)),
    length_filter_map_country]
  omega

theorem addToBucket_not_mem (acc : List (String × Nat)) (c : String)
    (n : Nat) (h : c ∉ acc.map Prod.fst) : addToBucket acc c n = acc := by
  induction acc with
  | nil => rfl
  | cons q t ih =>
    have hq : ¬ q.1 = c := fun hqc => h (by simp [hqc.symm])
    show (if q.1 = c then (q.1, q.2 + n) else q) :: addToBucket t c n
        = q :: t
    rw [if_neg hq, ih (fun hmem => h (by simp; right; simpa using hmem))]

theorem totalCount_addToBucket (acc : List (String × Nat)) (c : String)
    (n : Nat) (hnd : (acc.map Prod.fst).Nodup) :
    totalCount (addToBucket acc c n)
      = totalCount acc + (if c ∈ acc.map Prod.fst then n else 0) := by
  induction acc with
  | nil => simp [addToBucket, totalCount]
  | cons q t ih =>
    have hhead : q.1 ∉ t.map Prod.fst := by
      have := List.nodup_cons.mp hnd
      exact this.1
    have htail : (t.map Prod.fst).Nodup := (List.nodup_cons.mp hnd).2
    show totalCount ((if q.1 = c then (q.1, q.2 + n) else q)
        :: addToBucket t c n) = _
    by_cases hq : q.1 = c
    · rw [if_pos hq]
      have hcnot : c ∉ t.map Prod.fst := hq ▸ hhead
      rw [show addToBucket t c n = t from addToBucket_not_mem t c n hcnot]
      have hcmem : c ∈ (q :: t).map Prod.fst := by simp [hq.symm]
      rw [if_pos hcmem]
      simp only [totalCount, List.map_cons, List.sum_cons]
      omega
    · rw [if_neg hq]
      show q.2 + totalCount (addToBucket t c n) = _
      rw [ih htail]
      by_cases hc : c ∈ t.map Prod.fst
      · rw [if_pos hc, if_pos (show c ∈ (q :: t).map Prod.fst by
          rw [List.map_cons]; exact List.mem_cons_of_mem _ hc)]
        show _ = q.2 + totalCount t + n
        omega
      · rw [if_neg hc, if_neg (by
          simp only [List.map_cons, List.mem_cons]
          rintro (h | h)
          · exact hq h.symm
          · exact hc h)]
        show q.2 + (totalCount t + 0) = q.2 + totalCount t + 0
        omega

theorem totalCount_foldBuckets (K : List String) (hnd : K.Nodup) :
    ∀ (pairs : List (String × Nat)) (acc : List (String × Nat)),
      acc.map Prod.fst = K →
      totalCount (pairs.foldl (fun a p => addToBucket a (contOf p.1) p.2) acc)
        = totalCount acc
          + ((pairs.filter (fun p => decide (contOf p.1 ∈ K))).map
              Prod.snd).sum := by
  intro pairs
  induction pairs with
  | nil => intro acc hK; simp
  | cons p ps ih =>
    intro acc hK
    show totalCount (ps.foldl _ (addToBucket acc (contOf p.1) p.2)) = _
    rw [ih (addToBucket acc (contOf p.1) p.2)
      (by rw [map_fst_addToBucket]; exact hK)]
    rw [totalCount_addToBucket acc (contOf p.1) p.2 (hK ▸ hnd), hK]
    by_cases hc : contOf p.1 ∈ K
    · have h2 : (p :: ps).filter (fun q => decide (contOf q.1 ∈ K))
          = p :: ps.filter (fun q => decide (contOf q.1 ∈ K)) := by
        simp [List.filter_cons, hc]
      rw [h2, if_pos hc]
      simp only [List.map_cons, List.sum_cons]
      omega
    · have h2 : (p :: ps).filter (fun q => decide (contOf q.1 ∈ K))
          = ps.filter (fun q => decide (contOf q.1 ∈ K)) := by
        simp [List.filter_cons, hc]
      rw [h2, if_neg hc]
      omega

/-- Every continent value of the static table is one of the five reported
buckets (the All key of the table maps no country). -/
theorem table_values_in_five :
    ∀ p ∈ country_to_continent, p.2 ∈ fiveContinents := by
  decide

theorem contOf_mem_five_iff (c : String) :
    contOf c ∈ fiveContinents ↔ (country_to_continent_get c).isSome := by
  unfold contOf
  cases h : country_to_continent_get c with
  | none =>
    simp only [Option.getD_none, Option.isSome_none]
    constructor
    · intro hmem
      exact absurd hmem (by decide)
    · intro hfalse
      cases hfalse
  | some v =>
    simp only [Option.getD_some, Option.isSome_some]
    constructor
    · intro _; trivial
    · intro _
      obtain ⟨p, hfind⟩ : ∃ p, country_to_continent.find?
          (fun q => q.1 == c) = some p ∧ p.2 = v := by
        unfold country_to_continent_get at h
        cases hf : country_to_continent.find? (fun q => q.1 == c) with
        | none => rw [hf] at h; cases h
        | some p => rw [hf] at h; exact ⟨p, rfl, by cases h; rfl⟩
      exact hfind.2 ▸ table_values_in_five p
        (List.mem_of_find?_eq_some hfind.1)

theorem totalCount_graph (df : List CustomerRecord) :
    totalCount (customer_continent_graph df)
      = ((drop_duplicates df).filter
          (fun r => decide (contOf r.Country ∈ fiveContinents))).length := by
  show totalCount ((value_counts ((drop_duplicates df).map (·.Country))).foldl
      (fun a p => addToBucket a (contOf p.1) p.2) continent_count_init) = _
  rw [totalCount_foldBuckets fiveContinents (by decide) _ continent_count_init
    rfl]
  rw [value_counts_sum (fun c => decide (contOf c ∈ fiveContinents)),
    length_filter_map_country,
    show totalCount continent_count_init = 0 from rfl]
  omega

theorem dropDupGo_cons_mem {seen : List Nat} {r : CustomerRecord}
    {rs : List CustomerRecord} (hr : r.CustomerID ∈ seen) :
    dropDupGo seen (r :: rs) = dropDupGo seen rs := by
  simp only [dropDupGo]
  rw [if_pos hr]

theorem dropDupGo_cons_not_mem {seen : List Nat} {r : CustomerRecord}
    {rs : List CustomerRecord} (hr : r.CustomerID ∉ seen) :
    dropDupGo seen (r :: rs)
      = r :: dropDupGo (r.CustomerID :: seen) rs := by
  simp only [dropDupGo]
  rw [if_neg hr]

theorem mem_dropDupGo_cids :
    ∀ (l : List CustomerRecord) (seen : List Nat) (x : Nat),
      x ∈ (dropDupGo seen l).map (·.CustomerID)
        ↔ x ∈ l.map (·.CustomerID) ∧ x ∉ seen := by
  intro l
  induction l with
  | nil => intro seen x; simp [dropDupGo]
  | cons r rs ih =>
    intro seen x
    by_cases hr : r.CustomerID ∈ seen
    · rw [dropDupGo_cons_mem hr, ih seen x]
      constructor
      · rintro ⟨hmem, hs⟩
        exact ⟨by simp only [List.map_cons, List.mem_cons]; right; exact hmem,
          hs⟩
      · rintro ⟨hmem, hs⟩
        rw [List.map_cons] at hmem
        rcases List.mem_cons.mp hmem with heq | hmem2
        · exact absurd (show x ∈ seen by rw [heq]; exact hr) hs
        · exact ⟨hmem2, hs⟩
    · rw [dropDupGo_cons_not_mem hr]
      simp only [List.map_cons, List.mem_cons]
      rw [ih (r.CustomerID :: seen) x]
      constructor
      · rintro (heq | ⟨hmem, hs⟩)
        · exact ⟨Or.inl heq, heq ▸ hr⟩
        · exact ⟨Or.inr hmem, fun hx => hs (List.mem_cons_of_mem _ hx)⟩
      · rintro ⟨heq | hmem, hs⟩
        · exact Or.inl heq
        · by_cases hx : x = r.CustomerID
          · exact Or.inl hx
          · exact Or.inr ⟨hmem, by
              intro hmem2
              rcases List.mem_cons.mp hmem2 with h | h
              · exact hx h
              · exact hs h⟩

theorem nodup_dropDupGo_cids :
    ∀ (l : List CustomerRecord) (seen : List Nat),
      ((dropDupGo seen l).map (·.CustomerID)).Nodup := by
  intro l
  induction l with
  | nil => intro seen; simp [dropDupGo]
  | cons r rs ih =>
    intro seen
    by_cases hr : r.CustomerID ∈ seen
    · rw [dropDupGo_cons_mem hr]
      exact ih seen
    · rw [dropDupGo_cons_not_mem hr]
      simp only [List.map_cons, List.nodup_cons]
      refine ⟨fun hmem => ?_, ih (r.CustomerID :: seen)⟩
      have := (mem_dropDupGo_cids rs (r.CustomerID :: seen) r.CustomerID).mp hmem
      exact this.2 (List.mem_cons_self _ _)

theorem drop_duplicates_length_eq_dedup (df : List CustomerRecord) :
    (drop_duplicates df).length = ((df.map (·.CustomerID)).dedup).length := by
  have hnd : ((drop_duplicates df).map (·.CustomerID)).Nodup :=
    nodup_dropDupGo_cids df []
  have hmem : ∀ x, x ∈ (drop_duplicates df).map (·.CustomerID)
      ↔ x ∈ df.map (·.CustomerID) := by
    intro x
    unfold drop_duplicates
    rw [mem_dropDupGo_cids df [] x]
    simp
  have hfin : ((drop_duplicates df).map (·.CustomerID)).toFinset
      = (df.map (·.CustomerID)).toFinset := by
    ext x
    simp only [List.mem_toFinset]
    exact hmem x
  have h1 : ((drop_duplicates df).map (·.CustomerID)).toFinset.card
      = ((drop_duplicates df).map (·.CustomerID)).length :=
    List.toFinset_card_of_nodup hnd
  have h2 : ((df.map (·.CustomerID)).toFinset).card
      = ((df.map (·.CustomerID)).dedup).length :=
    List.card_toFinset _
  rw [← List.length_map (drop_duplicates df) (·.CustomerID), ← h1, hfin, h2]

/-- Claim C6: the five reported bucket values sum to at most the number
of distinct CustomerID values of the input (the length of the
de-duplicated table), with equality exactly when the country of every
de-duplicated record is a key of the static lookup. -/
theorem thm_C6 (df : List CustomerRecord) :
    totalCount (customer_continent_graph df)
      ≤ ((df.map (·.CustomerID)).dedup).length
    ∧ (drop_duplicates df).length = ((df.map (·.CustomerID)).dedup).length
    ∧ (totalCount (customer_continent_graph df)
          = ((df.map (·.CustomerID)).dedup).length
        ↔ ∀ r ∈ drop_duplicates df,
            (country_to_continent_get r.Country).isSome) := by
  have hlen := drop_duplicates_length_eq_dedup df
  have htot := totalCount_graph df
  refine ⟨?_, hlen, ?_⟩
  · rw [← hlen, htot]
    exact List.length_filter_le _ _
  · rw [← hlen, htot]
    constructor
    · intro hlen2 r hr
      have hsub := List.filter_sublist (l := drop_duplicates df)
        (p := fun r => decide (contOf r.Country ∈ fiveContinents))
      have heq := hsub.eq_of_length hlen2
      have := List.filter_eq_self.mp heq r hr
      exact (contOf_mem_five_iff r.Country).mp (by simpa using this)
    · intro hall
      have heq : (drop_duplicates df).filter
          (fun r => decide (contOf r.Country ∈ fiveContinents))
          = drop_duplicates df := by
        refine List.filter_eq_self.mpr (fun r hr => ?_)
        have := (contOf_mem_five_iff r.Country).mpr (hall r hr)
        simpa using this
      rw [heq]

theorem dropDupGo_drop_later_dup :
    ∀ (l₁ : List CustomerRecord) (seen : List Nat) (r : CustomerRecord)
      (l₂ : List CustomerRecord),
      (r.CustomerID ∈ seen ∨ r.CustomerID ∈ l₁.map (·.CustomerID)) →
      dropDupGo seen (l₁ ++ r :: l₂) = dropDupGo seen (l₁ ++ l₂) := by
  intro l₁
  induction l₁ with
  | nil =>
    intro seen r l₂ h
    have hr : r.CustomerID ∈ seen := by
      rcases h with h | h
      · exact h
      · simp at h
    show dropDupGo seen (r :: l₂) = dropDupGo seen l₂
    exact dropDupGo_cons_mem hr
  | cons x t ih =>
    intro seen r l₂ h
    show dropDupGo seen (x :: (t ++ r :: l₂)) = dropDupGo seen (x :: (t ++ l₂))
    by_cases hx : x.CustomerID ∈ seen
    · rw [dropDupGo_cons_mem hx, dropDupGo_cons_mem hx]
      refine ih seen r l₂ ?_
      rcases h with h | h
      · exact Or.inl h
      · rw [List.map_cons] at h
        rcases List.mem_cons.mp h with heq | hmem
        · exact Or.inl (by rw [heq]; exact hx)
        · exact Or.inr hmem
    · rw [dropDupGo_cons_not_mem hx, dropDupGo_cons_not_mem hx]
      refine congrArg (x :: ·) (ih (x.CustomerID :: seen) r l₂ ?_)
      rcases h with h | h
      · exact Or.inl (List.mem_cons_of_mem _ h)
      · rw [List.map_cons] at h
        rcases List.mem_cons.mp h with heq | hmem
        · exact Or.inl (by rw [heq]; exact List.mem_cons_self _ _)
        · exact Or.inr hmem

/-- Claim C7: a row whose CustomerID already occurred earlier in the
table contributes nothing: dropping it changes neither the de-duplicated
table (so the customer stays attributed to the country of its first
occurrence) nor the aggregation result, even when the duplicate row
carries a different country. -/
theorem thm_C7 (l₁ : List CustomerRecord) (r : CustomerRecord)
    (l₂ : List CustomerRecord)
    (hdup : r.CustomerID ∈ l₁.map (·.CustomerID)) :
    customer_continent_graph (l₁ ++ r :: l₂)
      = customer_continent_graph (l₁ ++ l₂)
    ∧ drop_duplicates (l₁ ++ r :: l₂) = drop_duplicates (l₁ ++ l₂) := by
  have hd : drop_duplicates (l₁ ++ r :: l₂) = drop_duplicates (l₁ ++ l₂) :=
    dropDupGo_drop_later_dup l₁ [] r l₂ (Or.inr hdup)
  refine ⟨?_, hd⟩
  unfold customer_continent_graph
  rw [hd]

/-- Claim C7 witness: two rows with CustomerID 1 and different countries
count once, attributed to the first row (France), so Europe gets the
customer and North America does not. -/
theorem thm_C7_witness :
    (customer_continent_graph [⟨1, "France"⟩, ⟨1, "USA"⟩]
        = customer_continent_graph [⟨1, "France"⟩]
      ∧ drop_duplicates [⟨1, "France"⟩, ⟨1, "USA"⟩]
        = drop_duplicates [⟨1, "France"⟩])
    ∧ customer_continent_graph [⟨1, "France"⟩, ⟨1, "USA"⟩]
      = [("Europe", 1), ("Asia", 0), ("Oceania", 0),
         ("South America", 0), ("North America", 0)] :=
  ⟨thm_C7 [⟨1, "France"⟩] ⟨1, "USA"⟩ [] (by decide), rfl⟩

theorem buckets_ext :
    ∀ (b1 b2 : List (String × Nat)),
      b1.map Prod.fst = b2.map Prod.fst →
      (b1.map Prod.fst).Nodup →
      (∀ k ∈ b1.map Prod.fst, getCount b1 k = getCount b2 k) →
      b1 = b2 := by
  intro b1
  induction b1 with
  | nil =>
    intro b2 hk _ _
    exact (List.map_eq_nil_iff.mp hk.symm).symm
  | cons p t1 ih =>
    intro b2 hk hnd hv
    cases b2 with
    | nil => cases hk
    | cons q t2 =>
      simp only [List.map_cons, List.cons.injEq] at hk
      obtain ⟨hfst, htail⟩ := hk
      have hhead : p = q := by
        have h1 : getCount (p :: t1) p.1 = p.2 := by
          unfold getCount
          rw [List.find?_cons_of_pos _ (by simp)]
          rfl
        have h2 : getCount (q :: t2) p.1 = q.2 := by
          unfold getCount
          rw [List.find?_cons_of_pos _ (by simp [hfst.symm])]
          rfl
        have := hv p.1 (by simp)
        rw [h1, h2] at this
        exact Prod.ext hfst this
      rw [hhead]
      refine congrArg (q :: ·) (ih t2 htail (List.nodup_cons.mp hnd).2 ?_)
      intro k hkmem
      have hne : ¬ p.1 = k := by
        intro heq
        exact (List.nodup_cons.mp hnd).1 (heq ▸ hkmem)
      have e1 : getCount (p :: t1) k = getCount t1 k := by
        unfold getCount
        rw [List.find?_cons_of_neg _ (by simp [hne])]
      have e2 : getCount (q :: t2) k = getCount t2 k := by
        unfold getCount
        rw [List.find?_cons_of_neg _ (by
          simp [show ¬ q.1 = k from hfst ▸ hne])]
      rw [← e1, ← e2]
      exact hv k (by rw [List.map_cons]; exact List.mem_cons_of_mem _ hkmem)

theorem drop_duplicates_append_single (df : List CustomerRecord)
    (r : CustomerRecord) :
    drop_duplicates (df ++ [r])
      = drop_duplicates df
        ++ (if r.CustomerID ∈ df.map (·.CustomerID) then [] else [r]) := by
  have hgen : ∀ (l : List CustomerRecord) (seen : List Nat),
      dropDupGo seen (l ++ [r])
        = dropDupGo seen l
          ++ (if r.CustomerID ∈ seen ∨ r.CustomerID ∈ l.map (·.CustomerID)
              then [] else [r]) := by
    intro l
    induction l with
    | nil =>
      intro seen
      have hiff : (r.CustomerID ∈ seen
            ∨ r.CustomerID ∈ ([] : List CustomerRecord).map (·.CustomerID))
          ↔ r.CustomerID ∈ seen := by simp
      rw [if_congr hiff rfl rfl]
      show dropDupGo seen [r] = dropDupGo seen [] ++ _
      by_cases hr : r.CustomerID ∈ seen
      · rw [dropDupGo_cons_mem hr, if_pos hr]
        rfl
      · rw [dropDupGo_cons_not_mem hr, if_neg hr]
        rfl
    | cons x t ih =>
      intro seen
      show dropDupGo seen (x :: (t ++ [r])) = dropDupGo seen (x :: t) ++ _
      by_cases hx : x.CustomerID ∈ seen
      · rw [dropDupGo_cons_mem hx, dropDupGo_cons_mem hx, ih seen]
        have hiff : (r.CustomerID ∈ seen
              ∨ r.CustomerID ∈ t.map (·.CustomerID))
            ↔ (r.CustomerID ∈ seen
              ∨ r.CustomerID ∈ (x :: t).map (·.CustomerID)) := by
          simp only [List.map_cons, List.mem_cons]
          constructor
          · rintro (h | h)
            · exact Or.inl h
            · exact Or.inr (Or.inr h)
          · rintro (h | heq | h)
            · exact Or.inl h
            · exact Or.inl (show r.CustomerID ∈ seen by rw [heq]; exact hx)
            · exact Or.inr h
        rw [if_congr hiff rfl rfl]
      · rw [dropDupGo_cons_not_mem hx, dropDupGo_cons_not_mem hx,
          ih (x.CustomerID :: seen), List.cons_append]
        have hiff : (r.CustomerID ∈ x.CustomerID :: seen
              ∨ r.CustomerID ∈ t.map (·.CustomerID))
            ↔ (r.CustomerID ∈ seen
              ∨ r.CustomerID ∈ (x :: t).map (·.CustomerID)) := by
          simp only [List.map_cons, List.mem_cons]
          constructor
          · rintro (h | h)
            · rcases h with heq | hs
              · exact Or.inr (Or.inl heq)
              · exact Or.inl hs
            · exact Or.inr (Or.inr h)
          · rintro (h | heq | h)
            · exact Or.inl (Or.inr h)
            · exact Or.inl (Or.inl heq)
            · exact Or.inr h
        rw [if_congr hiff rfl rfl]
  have hiff2 : (r.CustomerID ∈ ([] : List Nat)
        ∨ r.CustomerID ∈ df.map (·.CustomerID))
      ↔ r.CustomerID ∈ df.map (·.CustomerID) := by simp
  unfold drop_duplicates
  rw [hgen df [], if_congr hiff2 rfl rfl]

/-- Claim C10: the static lookup is an exact, case-sensitive string
match: appending any record whose Country is not literally a key of the
table (for example usa instead of USA, or a name with surrounding
whitespace) leaves every reported bucket unchanged, and the concrete
lookups show usa and a padded USA are unmapped while the exact USA maps
to North America. -/
theorem thm_C10 :
    (∀ (df : List CustomerRecord) (r : CustomerRecord),
      country_to_continent_get r.Country = none →
      customer_continent_graph (df ++ [r]) = customer_continent_graph df)
    ∧ country_to_continent_get "usa" = none
    ∧ country_to_continent_get " USA" = none
    ∧ country_to_continent_get "USA" = some "North America" := by
  refine ⟨?_, rfl, rfl, rfl⟩
  intro df r hr
  have hcont : contOf r.Country = "Other" := by
    unfold contOf
    rw [hr]
    rfl
  refine buckets_ext _ _ ?_ ?_ ?_
  · rw [map_fst_graph, map_fst_graph]
  · rw [map_fst_graph]
    decide
  · intro k hkmem
    rw [map_fst_graph] at hkmem
    rw [getCount_graph _ k hkmem, getCount_graph _ k hkmem,
      drop_duplicates_append_single]
    by_cases hdup : r.CustomerID ∈ df.map (·.CustomerID)
    · rw [if_pos hdup, List.append_nil]
    · rw [if_neg hdup, List.filter_append]
      have hne : ¬ contOf r.Country = k := by
        rw [hcont]
        intro heq
        exact absurd (heq ▸ hkmem) (by decide)
      rw [show [r].filter (fun x => decide (contOf x.Country = k)) = []
        from by simp [hne]]
      rw [List.append_nil]

/-- Claim C10 witness: a record with country usa (wrong case) does not
change any bucket, while the record with the exact key USA does. -/
theorem thm_C10_witness :
    customer_continent_graph [⟨1, "France"⟩, ⟨2, "usa"⟩]
      = customer_continent_graph [⟨1, "France"⟩]
    ∧ customer_continent_graph [⟨1, "France"⟩, ⟨2, "usa"⟩]
      = [("Europe", 1), ("Asia", 0), ("Oceania", 0),
         ("South America", 0), ("North America", 0)]
    ∧ customer_continent_graph [⟨1, "France"⟩, ⟨2, "USA"⟩]
      = [("Europe", 1), ("Asia", 0), ("Oceania", 0),
         ("South America", 0), ("North America", 1)] :=
  ⟨thm_C10.1 [⟨1, "France"⟩] ⟨2, "usa"⟩ rfl, rfl, rfl⟩

end OrderDetailsFrontend
